import Mathlib

/-!
Shallow embedding of `s54http/utils.py` (the s54http proxy's shared helpers):
the bounded `Cache` (an `OrderedDict` subclass with FIFO eviction), the
`SSLCtxFactory` TLS-context builder, the `NullProxy` singleton, the
`daemonize` double-fork sequence and the path-resolution loop of
`parse_args`.  Python dictionaries are modelled as insertion-ordered
association lists; exceptions (`KeyError`, `AttributeError`, `RuntimeError`,
`SystemExit`) are modelled with `Except`.
-/

namespace S54http

/-! ## Cache (utils.py lines 102-111)

`Cache(collections.OrderedDict)` with `__init__(self, limit=1024)` storing
`limit`, and
```
def __setitem__(self, key, value):
    while len(self) >= self.limit:
        self.popitem(last=False)
    super().__setitem__(key, value)
```
An `OrderedDict` is an insertion-ordered association list with unique keys.
`popitem(last=False)` removes the oldest (front) entry and raises `KeyError`
when the dict is empty.  `OrderedDict.__setitem__` on an existing key
replaces the value in place (position unchanged); on a new key it appends.
-/

/-- The `while len(self) >= self.limit: self.popitem(last=False)` loop of
`Cache.__setitem__`.  `Except.error ()` models the `KeyError` that
`popitem(last=False)` raises on an empty dict. -/
def evictLoop (limit : Nat) : List (K × V) → Except Unit (List (K × V))
  | [] =>
    if 0 ≥ limit then Except.error () else Except.ok []
  | p :: rest =>
    if (p :: rest).length ≥ limit then evictLoop limit rest
    else Except.ok (p :: rest)

/-- `OrderedDict.__setitem__`: replace in place when the key is present,
append at the end otherwise. -/
def odSetItem [DecidableEq K] (l : List (K × V)) (k : K) (v : V) :
    List (K × V) :=
  if l.any (fun p => p.1 = k) then
    l.map (fun p => if p.1 = k then (k, v) else p)
  else l ++ [(k, v)]

/-- `Cache.__setitem__`: run the eviction loop (propagating its `KeyError`),
then do the ordinary `OrderedDict` insertion. -/
def cacheSetItem [DecidableEq K] (limit : Nat) (l : List (K × V))
    (k : K) (v : V) : Except Unit (List (K × V)) :=
  match evictLoop limit l with
  | Except.error e => Except.error e
  | Except.ok l2 => Except.ok (odSetItem l2 k v)

/-- A sequence of `put` operations applied one after another to a cache
currently holding `acc`; the first raised exception stops the sequence. -/
def foldPuts [DecidableEq K] (limit : Nat) :
    List (K × V) → List (K × V) → Except Unit (List (K × V))
  | [], acc => Except.ok acc
  | p :: ps, acc =>
    match cacheSetItem limit acc p.1 p.2 with
    | Except.error e => Except.error e
    | Except.ok acc2 => foldPuts limit ps acc2

/-- A sequence of `put` operations applied to a freshly constructed
(empty) cache with the given `limit`. -/
def runPuts [DecidableEq K] (limit : Nat) (ops : List (K × V)) :
    Except Unit (List (K × V)) :=
  foldPuts limit ops []

/-! ## SSLCtxFactory (utils.py lines 45-99)

The pyOpenSSL calls are modelled by a record `Ctx` of everything
`cacheContext` configures on the `SSL.Context` it creates.  The factory's
`__dict__` is modelled by `FactoryState`; the `_ctx` field is doubly
optional because `__getstate__` deletes the `_ctx` key outright, so after
`__setstate__` any access to `self._ctx` raises `AttributeError`.
-/

/-- `SSL.TLSv1_2_METHOD` (pyOpenSSL numeric constant). -/
def TLSv1_2_METHOD : Nat := 6

/-- The `SSL.OP_NO_*` protocol-disabling options used at lines 71-74. -/
inductive SSLOpt
  | OP_NO_SSLv2
  | OP_NO_SSLv3
  | OP_NO_TLSv1
  | OP_NO_TLSv1_1
  deriving DecidableEq

/-- The `SSL.VERIFY_*` flags combined at lines 82-85. -/
inductive VerifyFlag
  | VERIFY_PEER
  | VERIFY_FAIL_IF_NO_PEER_CERT
  | VERIFY_CLIENT_ONCE
  deriving DecidableEq

/-- A Python callback value stored by the factory: either the default
`verify` closure defined in `__init__` (lines 60-63) or an opaque
caller-supplied callable identified by a tag. -/
inductive Callback
  | defaultVerify
  | custom (tag : Nat)
  deriving DecidableEq

/-- The realized TLS context: the record of everything
`SSLCtxFactory.cacheContext` configures on the `SSL.Context` it builds
(utils.py lines 70-87). -/
structure Ctx where
  method : Nat
  options : List SSLOpt
  certFile : String
  keyFile : String
  caFile : String
  tmpDh : Option String
  cipherList : String
  verifyMode : List VerifyFlag
  verifyCallback : Callback
  deriving DecidableEq

/-- The `__dict__` of an `SSLCtxFactory` instance.  In `_ctx`, the outer
`Option` records whether the key `_ctx` is present in `__dict__` at all
(`__getstate__` deletes it, making later attribute access raise
`AttributeError`); the inner `Option` is the stored Python value (`None`
until a context is built). -/
structure FactoryState where
  isClient : Bool
  _ca : String
  _key : String
  _cert : String
  _dhparam : Option String
  _callback : Callback
  _ctx : Option (Option Ctx)
  deriving DecidableEq

/-- The context-construction body of `cacheContext` (utils.py lines
70-88): create a TLSv1.2 context, set the four protocol-disabling
options, load certificate, key and CA, load DH parameters only when
`if self._dhparam:` is truthy (so `None` and the empty string both skip),
set the fixed cipher list and the peer-verification mode and callback. -/
def buildContext (s : FactoryState) : Ctx :=
  { method := TLSv1_2_METHOD
    options := [SSLOpt.OP_NO_SSLv2, SSLOpt.OP_NO_SSLv3,
      SSLOpt.OP_NO_TLSv1, SSLOpt.OP_NO_TLSv1_1]
    certFile := s._cert
    keyFile := s._key
    caFile := s._ca
    tmpDh :=
      match s._dhparam with
      | none => none
      | some d => if d = "" then none else some d
    cipherList := "ECDHE-RSA-AES128-GCM-SHA256"
    verifyMode := [VerifyFlag.VERIFY_PEER,
      VerifyFlag.VERIFY_FAIL_IF_NO_PEER_CERT,
      VerifyFlag.VERIFY_CLIENT_ONCE]
    verifyCallback := s._callback }

/-- `SSLCtxFactory.cacheContext` (utils.py lines 67-88): return
immediately when a context is already cached, otherwise build and store
one.  `Except.error ()` models the `AttributeError` raised by
`self._ctx` when the key is missing from `__dict__` (as after
`__setstate__`). -/
def cacheContext (s : FactoryState) : Except Unit FactoryState :=
  match s._ctx with
  | none => Except.error ()
  | some (some _) => Except.ok s
  | some none => Except.ok { s with _ctx := some (some (buildContext s)) }

/-- The instance state assembled by `SSLCtxFactory.__init__` just before
its final `self.cacheContext()` call (utils.py lines 49-64): `_ctx` is
set to Python `None`, and a `None` callback argument is replaced by the
default `verify` closure. -/
def initialState (client : Bool) (ca key cert : String)
    (dhparam : Option String) (callback : Option Callback) : FactoryState :=
  { isClient := client
    _ca := ca
    _key := key
    _cert := cert
    _dhparam := dhparam
    _callback := callback.getD Callback.defaultVerify
    _ctx := some none }

/-- `SSLCtxFactory.__init__` (utils.py lines 49-65): set up the fields,
then eagerly build the context via `cacheContext`. -/
def factoryInit (client : Bool) (ca key cert : String)
    (dhparam : Option String) (callback : Option Callback) :
    Except Unit FactoryState :=
  cacheContext (initialState client ca key cert dhparam callback)

/-- The serializable state produced by `__getstate__` (utils.py lines
90-93): a copy of `__dict__` with the `_ctx` entry deleted, every other
field kept. -/
structure SerializedState where
  isClient : Bool
  _ca : String
  _key : String
  _cert : String
  _dhparam : Option String
  _callback : Callback
  deriving DecidableEq

/-- `SSLCtxFactory.__getstate__`. -/
def getstate (s : FactoryState) : SerializedState :=
  { isClient := s.isClient
    _ca := s._ca
    _key := s._key
    _cert := s._cert
    _dhparam := s._dhparam
    _callback := s._callback }

/-- `SSLCtxFactory.__setstate__` (utils.py lines 95-96):
`self.__dict__ = state`, so the `_ctx` key is absent from the restored
`__dict__`. -/
def setstate (st : SerializedState) : FactoryState :=
  { isClient := st.isClient
    _ca := st._ca
    _key := st._key
    _cert := st._cert
    _dhparam := st._dhparam
    _callback := st._callback
    _ctx := none }

/-- `SSLCtxFactory.getContext` (utils.py lines 98-99):
`return self._ctx`; raises `AttributeError` when `_ctx` is missing from
`__dict__`. -/
def getContext (s : FactoryState) : Except Unit (Option Ctx) :=
  match s._ctx with
  | none => Except.error ()
  | some c => Except.ok c

/-! ## NullProxy (utils.py lines 25-42) -/

/-- The class-level mutable state of `NullProxy` together with an
allocation counter giving Python object identities: `npInstance` is
`NullProxy._instance`, holding the id of the singleton once created. -/
structure PyHeap where
  nextId : Nat
  npInstance : Option Nat
  deriving DecidableEq

/-- The process state before any `NullProxy()` call:
`NullProxy._instance = None`. -/
def initHeap : PyHeap := { nextId := 0, npInstance := none }

namespace NullProxy

/-- `NullProxy.__new__` (utils.py lines 29-36): allocate a fresh object
the first time, afterwards return the stored `cls._instance`. -/
def new (st : PyHeap) : Nat × PyHeap :=
  match st.npInstance with
  | none =>
    (st.nextId, { nextId := st.nextId + 1, npInstance := some st.nextId })
  | some i => (i, st)

/-- `NullProxy.__getattr__` (utils.py lines 38-39): any attribute access
resolved through `__getattr__` returns `self`. -/
def getattr (self : Nat) (name : String) : Nat := self

/-- `NullProxy.__call__` (utils.py lines 41-42): calling the instance
with any positional and keyword arguments returns `self`. -/
def call (self : Nat) (args : List Nat) (kwargs : List (String × Nat)) :
    Nat := self

/-- The results of `n` successive constructions `NullProxy()`. -/
def newSeq : Nat → PyHeap → List Nat × PyHeap
  | 0, st => ([], st)
  | n + 1, st =>
    let r := new st
    let rs := newSeq n r.2
    (r.1 :: rs.1, rs.2)

end NullProxy

/-! ## daemonize (utils.py lines 114-150) -/

/-- An observable action of `daemonize`, in program order. -/
inductive Effect
  | logInfo (msg : String)
  | exitProcess (status : Nat)
  | forkCall
  | raiseRuntime (msg : String)
  | chdir (path : String)
  | umask (mask : Nat)
  | setsid
  | flushStdin
  | flushStdout
  | redirectStream (target : String) (stream : String)
  | writePidFile (pidfile : String) (pid : Nat)
  | registerPidfileRemoval (pidfile : String)
  deriving DecidableEq

/-- Outcome of one `os.fork()` call as seen by the process being traced:
in the parent it returns the positive child pid, in the child it returns
0, and it may raise `OSError`. -/
inductive ForkResult
  | parent (childPid : Nat)
  | child
  | failed
  deriving DecidableEq

/-- `daemonize(pidfile, *, stdin, stdout, stderr)` (utils.py lines
114-150) as the ordered list of observable actions it performs, traced
from the invoking process and following the surviving child across each
successful fork.  `pidfileExists` is the result of
`os.path.exists(pidfile)` at entry; `fork1`, `fork2` are the outcomes of
the two `os.fork()` calls; `pid` is `os.getpid()` of the final process.
`exitProcess` is `SystemExit` with the given status, `raiseRuntime` the
`RuntimeError` re-raised on a failed fork. -/
def daemonize (pidfileExists : Bool) (pidfile stdin stdout stderr : String)
    (fork1 fork2 : ForkResult) (pid : Nat) : List Effect :=
  if pidfileExists then
    [Effect.logInfo "already running", Effect.exitProcess 1]
  else
    Effect.forkCall ::
      match fork1 with
      | ForkResult.parent _ => [Effect.exitProcess 0]
      | ForkResult.failed => [Effect.raiseRuntime "fork #1 failed"]
      | ForkResult.child =>
        Effect.chdir "/" :: Effect.umask 0 :: Effect.setsid ::
          Effect.forkCall ::
          match fork2 with
          | ForkResult.parent _ => [Effect.exitProcess 0]
          | ForkResult.failed => [Effect.raiseRuntime "fork #2 failed"]
          | ForkResult.child =>
            [Effect.flushStdin, Effect.flushStdout,
             Effect.redirectStream stdin "stdin",
             Effect.redirectStream stdout "stdout",
             Effect.redirectStream stderr "stderr",
             Effect.writePidFile pidfile pid,
             Effect.registerPidfileRemoval pidfile]

/-! ## parse_args path resolution (utils.py lines 165-267)

Only the path-resolution loop at lines 258-267 carries a contract; the
argparse wiring above it is I/O glue.  `fsExists` models
`pathlib.Path(value).exists()` on the configured value and `absPath`
models `str(fp.absolute())`.
-/

/-- utils.py lines 166-173. -/
def PATH_ARGUMENT : List String :=
  ["ca", "key", "cert", "dhparam", "pidfile", "logfile"]

/-- utils.py lines 174-178, exactly as written in the source (note the
entry `"arg"`). -/
def FILE_ARGUMENT : List String := ["ca", "arg", "cert"]

/-- The configuration record: each named setting holds a string value or
Python `None`. -/
structure Config where
  ca : Option String
  key : Option String
  cert : Option String
  dhparam : Option String
  pidfile : Option String
  logfile : Option String
  deriving DecidableEq

/-- `config[arg]` for the names iterated by the loop. -/
def getArg (c : Config) : String → Option String
  | "ca" => c.ca
  | "key" => c.key
  | "cert" => c.cert
  | "dhparam" => c.dhparam
  | "pidfile" => c.pidfile
  | "logfile" => c.logfile
  | _ => none

/-- `config[arg] = v` for the names iterated by the loop. -/
def setArg (c : Config) (name : String) (v : Option String) : Config :=
  if name = "ca" then { c with ca := v }
  else if name = "key" then { c with key := v }
  else if name = "cert" then { c with cert := v }
  else if name = "dhparam" then { c with dhparam := v }
  else if name = "pidfile" then { c with pidfile := v }
  else if name = "logfile" then { c with logfile := v }
  else c

/-- One iteration of the `for arg in PATH_ARGUMENT:` loop (utils.py lines
258-267): store the absolutized path, then if the file does not exist
either null out `dhparam` or raise `RuntimeError` for members of
`FILE_ARGUMENT`.  A `None` value would make `pathlib.Path(value)` raise
`TypeError`. -/
def resolveOne (fsExists : String → Bool) (absPath : String → String)
    (c : Config) (arg : String) : Except String Config :=
  match getArg c arg with
  | none => Except.error "TypeError"
  | some value =>
    let c1 := setArg c arg (some (absPath value))
    if fsExists value then Except.ok c1
    else if arg = "dhparam" then Except.ok (setArg c1 arg none)
    else if FILE_ARGUMENT.contains arg then
      Except.error (arg ++ " file not existed")
    else Except.ok c1

/-- The loop body iterated over a list of argument names. -/
def resolveLoop (fsExists : String → Bool) (absPath : String → String) :
    List String → Config → Except String Config
  | [], c => Except.ok c
  | arg :: rest, c =>
    match resolveOne fsExists absPath c arg with
    | Except.error e => Except.error e
    | Except.ok c2 => resolveLoop fsExists absPath rest c2

/-- The whole path-resolution pass of `parse_args`. -/
def parseArgsPaths (fsExists : String → Bool) (absPath : String → String)
    (c : Config) : Except String Config :=
  resolveLoop fsExists absPath PATH_ARGUMENT c

/-- A fully populated configuration used for concrete evaluation. -/
def sampleConfig : Config :=
  { ca := some "ca.pem"
    key := some "k.pem"
    cert := some "c.pem"
    dhparam := some "dh.pem"
    pidfile := some "pid"
    logfile := some "log" }

/-! ### Cache lemmas -/

theorem evictLoop_length {limit : Nat} :
    ∀ {l l2 : List (K × V)}, evictLoop limit l = Except.ok l2 →
      l2.length < limit
  | [], l2, h => by
    unfold evictLoop at h
    split at h
    next => exact absurd h (by simp)
    next hlt =>
      cases h
      simpa using Nat.lt_of_not_le hlt
  | p :: rest, l2, h => by
    unfold evictLoop at h
    split at h
    next => exact evictLoop_length h
    next hlt =>
      cases h
      exact Nat.lt_of_not_le hlt

theorem evictLoop_of_length_lt {limit : Nat} {l : List (K × V)}
    (h : l.length < limit) : evictLoop limit l = Except.ok l := by
  cases l with
  | nil =>
    have h0 : ¬ 0 ≥ limit := by simp at h ⊢; omega
    simp [evictLoop, h0]
  | cons p rest =>
    have h0 : ¬ (p :: rest).length ≥ limit := Nat.not_le_of_lt h
    simp only [evictLoop, h0, if_false]

theorem evictLoop_at_capacity {limit : Nat} {l : List (K × V)}
    (hlen : l.length = limit) (hpos : 1 ≤ limit) :
    evictLoop limit l = Except.ok l.tail := by
  cases l with
  | nil => simp at hlen; omega
  | cons p rest =>
    have hr : rest.length + 1 = limit := by simpa using hlen
    have hcond : (p :: rest).length ≥ limit := by simp; omega
    have hlt : rest.length < limit := by omega
    unfold evictLoop
    rw [if_pos hcond, evictLoop_of_length_lt hlt]
    rfl

theorem odSetItem_length_le [DecidableEq K] (l : List (K × V)) (k : K)
    (v : V) : (odSetItem l k v).length ≤ l.length + 1 := by
  unfold odSetItem
  split
  · simp
  · simp

theorem odSetItem_of_not_mem [DecidableEq K] {l : List (K × V)} {k : K}
    (h : k ∉ l.map Prod.fst) (v : V) : odSetItem l k v = l ++ [(k, v)] := by
  unfold odSetItem
  have hany : l.any (fun p => p.1 = k) = false := by
    simp only [List.any_eq_false, decide_eq_true_eq]
    intro p hp hpk
    exact h (hpk ▸ List.mem_map_of_mem Prod.fst hp)
  simp [hany]

theorem odSetItem_keys_of_mem [DecidableEq K] {l : List (K × V)} {k : K}
    (h : k ∈ l.map Prod.fst) (v : V) :
    (odSetItem l k v).map Prod.fst = l.map Prod.fst := by
  obtain ⟨p, hp, hpk⟩ := List.mem_map.1 h
  unfold odSetItem
  have hany : l.any (fun p => p.1 = k) = true := by
    simp only [List.any_eq_true, decide_eq_true_eq]
    exact ⟨p, hp, hpk⟩
  simp only [hany, if_true, List.map_map]
  refine List.map_congr_left (fun q _ => ?_)
  by_cases hq : q.1 = k
  · simp [Function.comp, hq]
  · simp [Function.comp, hq]

theorem cacheSetItem_ok_length [DecidableEq K] {limit : Nat}
    {l l2 : List (K × V)} {k : K} {v : V}
    (h : cacheSetItem limit l k v = Except.ok l2) : l2.length ≤ limit := by
  unfold cacheSetItem at h
  cases hEv : evictLoop limit l with
  | error e => rw [hEv] at h; exact absurd h (by simp)
  | ok l1 =>
    rw [hEv] at h
    simp only [Except.ok.injEq] at h
    subst h
    calc (odSetItem l1 k v).length ≤ l1.length + 1 :=
          odSetItem_length_le l1 k v
      _ ≤ limit := evictLoop_length hEv

theorem foldPuts_ok_length [DecidableEq K] {limit : Nat} :
    ∀ (ops acc l : List (K × V)),
      foldPuts limit ops acc = Except.ok l →
      l = acc ∨ l.length ≤ limit
  | [], acc, l, h => by
    left
    unfold foldPuts at h
    exact (Except.ok.injEq _ _ ▸ h : _ = _).symm ▸ rfl
  | p :: ps, acc, l, h => by
    right
    unfold foldPuts at h
    cases hStep : cacheSetItem limit acc p.1 p.2 with
    | error e => rw [hStep] at h; exact absurd h (by simp)
    | ok acc2 =>
      rw [hStep] at h
      rcases foldPuts_ok_length ps acc2 l h with rfl | hle
      · exact cacheSetItem_ok_length hStep
      · exact hle

theorem foldPuts_fresh [DecidableEq K] {limit : Nat} :
    ∀ (ps acc : List (K × V)),
      ((acc ++ ps).map Prod.fst).Nodup →
      acc.length + ps.length ≤ limit →
      foldPuts limit ps acc = Except.ok (acc ++ ps)
  | [], acc, _, _ => by simp [foldPuts]
  | p :: ps, acc, hnd, hlen => by
    have hacc : acc.length < limit := by
      simp at hlen; omega
    have hfresh : p.1 ∉ acc.map Prod.fst := by
      simp only [List.map_append, List.nodup_append, List.map_cons] at hnd
      intro hmem
      exact hnd.2.2 hmem (by simp)
    have hStep : cacheSetItem limit acc p.1 p.2 =
        Except.ok (acc ++ [p]) := by
      unfold cacheSetItem
      rw [evictLoop_of_length_lt hacc]
      show Except.ok (odSetItem acc p.1 p.2) = _
      rw [odSetItem_of_not_mem hfresh]
    unfold foldPuts
    rw [hStep]
    have hnd2 : (((acc ++ [p]) ++ ps).map Prod.fst).Nodup := by
      simpa [List.append_assoc] using hnd
    have hlen2 : (acc ++ [p]).length + ps.length ≤ limit := by
      simp at hlen ⊢; omega
    show foldPuts limit ps (acc ++ [p]) = _
    rw [foldPuts_fresh ps (acc ++ [p]) hnd2 hlen2]
    simp [List.append_assoc]

theorem evictLoop_zero : ∀ l : List (K × V), evictLoop 0 l = Except.error ()
  | [] => by
    unfold evictLoop
    rw [if_pos (Nat.le_refl 0)]
  | p :: rest => by
    unfold evictLoop
    rw [if_pos (Nat.zero_le _)]
    exact evictLoop_zero rest

theorem foldPuts_append_ok [DecidableEq K] {limit : Nat} :
    ∀ (xs : List (K × V)) {ys acc acc2 : List (K × V)},
      foldPuts limit xs acc = Except.ok acc2 →
      foldPuts limit (xs ++ ys) acc = foldPuts limit ys acc2
  | [], ys, acc, acc2, h => by
    unfold foldPuts at h
    cases h
    rfl
  | x :: xs, ys, acc, acc2, h => by
    rw [List.cons_append]
    simp only [foldPuts] at h ⊢
    cases hStep : cacheSetItem limit acc x.1 x.2 with
    | error e => rw [hStep] at h; exact absurd h (by simp)
    | ok a2 =>
      rw [hStep] at h
      show foldPuts limit (xs ++ ys) a2 = foldPuts limit ys acc2
      exact foldPuts_append_ok xs h

/-! ### NullProxy lemmas -/

theorem NullProxy.new_of_some {st : PyHeap} {i : Nat}
    (h : st.npInstance = some i) : NullProxy.new st = (i, st) := by
  unfold NullProxy.new
  rw [h]

theorem NullProxy.newSeq_of_some {st : PyHeap} {i : Nat}
    (h : st.npInstance = some i) :
    ∀ n, NullProxy.newSeq n st = (List.replicate n i, st)
  | 0 => by simp [NullProxy.newSeq]
  | n + 1 => by
    simp only [NullProxy.newSeq, NullProxy.new_of_some h,
      NullProxy.newSeq_of_some h n, List.replicate_succ]

/-! ## Claim theorems -/

/-- C1 counterexample: on a capacity-2 cache, the code's trace of
put(a:=1), put(b:=2), put(a:=3), put(c:=4) (a=0, b=1, c=2) ends with
contents [(a,3), (c,4)]: key a is still present and key b has been
evicted, so the claimed final contents {b, c} (with a evicted) are wrong.
The overwrite of a on the full cache popped the oldest entry (a itself)
and re-inserted a at the newest position, so the subsequent put(c)
evicted b. -/
theorem cache_overwrite_claim_cex :
    runPuts 2 [((0 : Nat), (1 : Nat)), (1, 2), (0, 3), (2, 4)] =
      Except.ok [(0, 3), (2, 4)] ∧
    (0 : Nat) ∈ [((0 : Nat), (3 : Nat)), (2, 4)].map Prod.fst ∧
    (1 : Nat) ∉ [((0 : Nat), (3 : Nat)), (2, 4)].map Prod.fst :=
  ⟨rfl, by decide, by decide⟩

/-- C1 amended: putting an existing key replaces its value without
eviction and without changing the key order only while the cache is
strictly below capacity; when the cache is full, every put — overwrite or
not — first evicts the oldest entry, so after put(a), put(b),
put(a, new), put(c) on a capacity-2 cache the key b has been evicted and
the final contents are exactly {a: new, c}. -/
theorem cache_overwrite_below_capacity :
    (∀ (limit : Nat) (l : List (Nat × Nat)) (k v : Nat),
        l.length < limit → k ∈ l.map Prod.fst →
        cacheSetItem limit l k v = Except.ok (odSetItem l k v) ∧
          (odSetItem l k v).map Prod.fst = l.map Prod.fst) ∧
    runPuts 2 [((0 : Nat), (1 : Nat)), (1, 2), (0, 3), (2, 4)] =
      Except.ok [(0, 3), (2, 4)] := by
  constructor
  · intro limit l k v hlt hmem
    constructor
    · unfold cacheSetItem
      rw [evictLoop_of_length_lt hlt]
    · exact odSetItem_keys_of_mem hmem v
  · rfl

/-- Witness for the amended C1 theorem at a concrete below-capacity
overwrite: capacity 3, contents [(0,1),(1,2)], put(0, 9). -/
theorem cache_overwrite_below_capacity_witness :
    cacheSetItem 3 [((0 : Nat), (1 : Nat)), (1, 2)] 0 9 =
      Except.ok [(0, 9), (1, 2)] ∧
    [((0 : Nat), (9 : Nat)), (1, 2)].map Prod.fst =
      [((0 : Nat), (1 : Nat)), (1, 2)].map Prod.fst := by
  have h := cache_overwrite_below_capacity.1 3 [(0, 1), (1, 2)] 0 9
    (by decide) (by decide)
  exact ⟨h.1, h.2⟩

/-- C2 counterexample: on a freshly constructed cache with limit = 0, the
very first put raises KeyError (`popitem(last=False)` on an empty dict)
instead of completing. -/
theorem cache_limit_zero_put_raises :
    cacheSetItem 0 ([] : List (Nat × Nat)) 0 0 = Except.error () := rfl

/-- C2 amended: a cache constructed with limit = 0 never completes a put:
whatever the current contents, key and value, `__setitem__` raises
KeyError out of the eviction loop, so no put ever completes and the cache
is never populated. -/
theorem cache_limit_zero_put_always_raises [DecidableEq K]
    (l : List (K × V)) (k : K) (v : V) :
    cacheSetItem 0 l k v = Except.error () := by
  unfold cacheSetItem
  rw [evictLoop_zero l]

/-- C5: for every finite sequence of put operations applied to a freshly
constructed cache of capacity N, whenever the operations complete with
contents `l`, the cache holds at most N distinct keys. -/
theorem cache_never_exceeds_capacity [DecidableEq K] (N : Nat)
    (ops : List (K × V)) (l : List (K × V))
    (h : runPuts N ops = Except.ok l) :
    (l.map Prod.fst).dedup.length ≤ N := by
  rcases foldPuts_ok_length ops [] l h with rfl | hle
  · simp
  · calc (l.map Prod.fst).dedup.length ≤ (l.map Prod.fst).length :=
        (List.dedup_sublist _).length_le
      _ = l.length := by simp
      _ ≤ N := hle

/-- Witness for C5: capacity 2, puts of keys 0, 1, 2 in order. -/
theorem cache_never_exceeds_capacity_witness :
    (([((1 : Nat), (1 : Nat)), (2, 2)].map Prod.fst).dedup.length ≤ 2) :=
  cache_never_exceeds_capacity 2 [(0, 0), (1, 1), (2, 2)] [(1, 1), (2, 2)]
    rfl

/-- C6: inserting N+1 pairwise-distinct keys in order into an initially
empty cache of capacity N ≥ 1 evicts exactly the first-inserted key: the
final contents are the last N insertions in order, and the first key is
absent from them. -/
theorem cache_evicts_exactly_first [DecidableEq K] (N : Nat) (hN : 1 ≤ N)
    (ps : List (K × V)) (hlen : ps.length = N + 1)
    (hnd : (ps.map Prod.fst).Nodup) :
    runPuts N ps = Except.ok ps.tail ∧
      ∀ p ∈ ps.head?, p.1 ∉ ps.tail.map Prod.fst := by
  obtain ⟨front, pl, rfl⟩ : ∃ front pl, ps = front ++ [pl] := by
    rcases List.eq_nil_or_concat ps with rfl | ⟨L, b, rfl⟩
    · simp at hlen
    · exact ⟨L, b, by simp⟩
  have hfrontlen : front.length = N := by
    simp at hlen
    omega
  have hndk : (front.map Prod.fst ++ [pl.1]).Nodup := by
    simpa [List.map_append] using hnd
  have hndf : (front.map Prod.fst).Nodup := hndk.of_append_left
  have hplf : pl.1 ∉ front.map Prod.fst := by
    intro hmem
    exact (List.disjoint_of_nodup_append hndk) hmem (by simp)
  have h1 : foldPuts N front ([] : List (K × V)) = Except.ok front := by
    have h0 : foldPuts N front ([] : List (K × V)) =
        Except.ok (([] : List (K × V)) ++ front) :=
      foldPuts_fresh front ([] : List (K × V)) (by simpa using hndf)
        (by simp [hfrontlen])
    simpa using h0
  have h2 : runPuts N (front ++ [pl]) = foldPuts N [pl] front := by
    unfold runPuts
    exact foldPuts_append_ok front h1
  have hEv : evictLoop N front = Except.ok front.tail :=
    evictLoop_at_capacity hfrontlen hN
  have hplt : pl.1 ∉ front.tail.map Prod.fst := by
    intro hmem
    exact hplf (((List.tail_sublist front).map Prod.fst).subset hmem)
  have h3 : cacheSetItem N front pl.1 pl.2 =
      Except.ok (front.tail ++ [pl]) := by
    unfold cacheSetItem
    rw [hEv]
    show Except.ok (odSetItem front.tail pl.1 pl.2) = _
    rw [odSetItem_of_not_mem hplt]
  cases front with
  | nil => simp at hfrontlen; omega
  | cons f fr =>
    constructor
    · rw [h2]
      simp only [foldPuts]
      rw [h3]
      rfl
    · intro p hp
      have hpf : f = p := by simpa using hp
      have hcons : (f.1 :: (fr.map Prod.fst ++ [pl.1])).Nodup := by
        simpa using hndk
      have hni := (List.nodup_cons.1 hcons).1
      rw [← hpf]
      simpa [List.cons_append, List.map_append] using hni

/-- Witness for C6: capacity 2, inserting keys 0, 1, 2 in order leaves
exactly [(1, 11), (2, 12)]. -/
theorem cache_evicts_exactly_first_witness :
    runPuts 2 [((0 : Nat), (10 : Nat)), (1, 11), (2, 12)] =
      Except.ok [(1, 11), (2, 12)] :=
  (cache_evicts_exactly_first 2 (by decide) [(0, 10), (1, 11), (2, 12)]
    (by decide) (by decide)).1

/-- C3: evaluation of the path-resolution loop on a fully populated
configuration under four filesystems.  (1) With every file present except
the key file, the loop completes with no error and the key path merely
absolutized — because `FILE_ARGUMENT` reads `["ca", "arg", "cert"]`
(`"arg"` where `"key"` was intended), a missing key file is silently
accepted, contradicting the claim that all three of ca, key, cert are
mandatory.  (2) A missing ca file raises `RuntimeError`.  (3) A missing
cert file raises `RuntimeError`.  (4) A missing dhparam file is non-fatal
and resolves that setting to `None`. -/
theorem parse_args_missing_key_not_fatal :
    parseArgsPaths (fun s => s != "k.pem") (fun s => "/abs/" ++ s)
        sampleConfig =
      Except.ok
        { ca := some "/abs/ca.pem"
          key := some "/abs/k.pem"
          cert := some "/abs/c.pem"
          dhparam := some "/abs/dh.pem"
          pidfile := some "/abs/pid"
          logfile := some "/abs/log" } ∧
    parseArgsPaths (fun s => s != "ca.pem") (fun s => "/abs/" ++ s)
        sampleConfig =
      Except.error "ca file not existed" ∧
    parseArgsPaths (fun s => s != "c.pem") (fun s => "/abs/" ++ s)
        sampleConfig =
      Except.error "cert file not existed" ∧
    parseArgsPaths (fun s => s != "dh.pem") (fun s => "/abs/" ++ s)
        sampleConfig =
      Except.ok
        { ca := some "/abs/ca.pem"
          key := some "/abs/k.pem"
          cert := some "/abs/c.pem"
          dhparam := none
          pidfile := some "/abs/pid"
          logfile := some "/abs/log" } :=
  ⟨rfl, rfl, rfl, rfl⟩

/-- C4: serialization does keep every field except the realized context
(`getstate` preserves exactly the other five fields, and `setstate`
restores them), but a deserialized factory does NOT rebuild the context
on first use: both `cacheContext` and `getContext` raise
`AttributeError`, because `__getstate__` deleted the `_ctx` key and
`__setstate__` restored a `__dict__` without it. -/
theorem factory_deserialized_first_use_raises :
    (∀ s : FactoryState,
      getstate s =
        { isClient := s.isClient
          _ca := s._ca
          _key := s._key
          _cert := s._cert
          _dhparam := s._dhparam
          _callback := s._callback } ∧
      setstate (getstate s) = { s with _ctx := none }) ∧
    (∀ s : FactoryState,
      cacheContext (setstate (getstate s)) = Except.error () ∧
      getContext (setstate (getstate s)) = Except.error ()) :=
  ⟨fun _ => ⟨rfl, rfl⟩, fun _ => ⟨rfl, rfl⟩⟩

/-- C7: when the PID file already exists, `daemonize` logs the
informational message and exits the process with the distinguished
non-zero status 1, and its action trace contains no fork, no stream
redirection, no working-directory, session or umask change, and no
PID-file write or cleanup registration — whatever the stream targets and
fork outcomes would have been. -/
theorem daemonize_already_running_guard
    (pidfile stdin stdout stderr : String) (fork1 fork2 : ForkResult)
    (pid : Nat) :
    daemonize true pidfile stdin stdout stderr fork1 fork2 pid =
      [Effect.logInfo "already running", Effect.exitProcess 1] ∧
    Effect.forkCall ∉
      daemonize true pidfile stdin stdout stderr fork1 fork2 pid ∧
    (∀ t str, Effect.redirectStream t str ∉
      daemonize true pidfile stdin stdout stderr fork1 fork2 pid) ∧
    (∀ p, Effect.chdir p ∉
      daemonize true pidfile stdin stdout stderr fork1 fork2 pid) ∧
    (∀ m, Effect.umask m ∉
      daemonize true pidfile stdin stdout stderr fork1 fork2 pid) ∧
    Effect.setsid ∉
      daemonize true pidfile stdin stdout stderr fork1 fork2 pid ∧
    (∀ pf n, Effect.writePidFile pf n ∉
      daemonize true pidfile stdin stdout stderr fork1 fork2 pid) ∧
    (∀ pf, Effect.registerPidfileRemoval pf ∉
      daemonize true pidfile stdin stdout stderr fork1 fork2 pid) := by
  refine ⟨rfl, ?_, ?_, ?_, ?_, ?_, ?_, ?_⟩ <;> simp [daemonize]

/-- C8: `__init__` builds the context exactly once: construction yields a
state on which `cacheContext` is a no-op (it returns the state unchanged,
never rebuilding), and `getContext` returns precisely the context object
built at construction time, on this and every later call. -/
theorem factory_context_built_once (client : Bool) (ca key cert : String)
    (dhparam : Option String) (callback : Option Callback) :
    ∃ s : FactoryState,
      factoryInit client ca key cert dhparam callback = Except.ok s ∧
      cacheContext s = Except.ok s ∧
      getContext s = Except.ok
        (some (buildContext
          (initialState client ca key cert dhparam callback))) :=
  ⟨{ initialState client ca key cert dhparam callback with
      _ctx := some (some (buildContext
        (initialState client ca key cert dhparam callback))) },
    rfl, rfl, rfl⟩

/-- C9: whenever `cacheContext` actually builds a context (`_ctx` holds
Python `None`), the context it stores is `buildContext s`, which is
created with the TLS 1.2 method and carries all four options disabling
SSLv2, SSLv3, TLS 1.0 and TLS 1.1. -/
theorem factory_context_tls12_only (s : FactoryState)
    (h : s._ctx = some none) :
    cacheContext s =
      Except.ok { s with _ctx := some (some (buildContext s)) } ∧
    (buildContext s).method = TLSv1_2_METHOD ∧
    SSLOpt.OP_NO_SSLv2 ∈ (buildContext s).options ∧
    SSLOpt.OP_NO_SSLv3 ∈ (buildContext s).options ∧
    SSLOpt.OP_NO_TLSv1 ∈ (buildContext s).options ∧
    SSLOpt.OP_NO_TLSv1_1 ∈ (buildContext s).options := by
  refine ⟨?_, rfl, by simp [buildContext], by simp [buildContext],
    by simp [buildContext], by simp [buildContext]⟩
  unfold cacheContext
  rw [h]

/-- Witness for C9 on a concretely constructed factory state. -/
theorem factory_context_tls12_only_witness :
    (initialState true "ca" "key" "cert" none none)._ctx = some none ∧
    (buildContext (initialState true "ca" "key" "cert" none none)).method =
      TLSv1_2_METHOD :=
  ⟨rfl,
    (factory_context_tls12_only
      (initialState true "ca" "key" "cert" none none) rfl).2.1⟩

/-- C10: `NullProxy` is a process-wide singleton — starting from the
initial class state, every one of n successive constructions returns the
same object (id 0) — and both `__getattr__` (for every attribute name)
and `__call__` (for all arguments) return the instance itself. -/
theorem nullproxy_singleton :
    (∀ n : Nat, (NullProxy.newSeq n initHeap).1 = List.replicate n 0) ∧
    (∀ (self : Nat) (name : String), NullProxy.getattr self name = self) ∧
    (∀ (self : Nat) (args : List Nat) (kwargs : List (String × Nat)),
      NullProxy.call self args kwargs = self) := by
  refine ⟨?_, fun _ _ => rfl, fun _ _ _ => rfl⟩
  intro n
  cases n with
  | zero => rfl
  | succ m =>
    have h1 : NullProxy.new initHeap =
        (0, { nextId := 1, npInstance := some 0 }) := rfl
    have h2 := NullProxy.newSeq_of_some
      (rfl : PyHeap.npInstance { nextId := 1, npInstance := some 0 } =
        some 0) m
    simp only [NullProxy.newSeq, h1, h2, List.replicate_succ]

end S54http
